import Mathlib

/-!
Verification of the mytoml TOML parser (repository djoezeke/tomlfy,
files src/mytoml.c and include/mytoml/mytoml.h) against its
natural-language specification.

The C sources are shallowly embedded: bytes of the input stream are
natural numbers 0..255, the tokenizer is a record with explicit state
passing, the AST is a mutual inductive mirroring TomlValue_t and
TomlKey_t, and the recursive-descent parser is a family of fueled
functions, one per C routine, translated branch by branch.  C pointer
returns into the AST are represented by paths from the root.  The libc
conversion routines strtoul and strtod, which the parser calls on its
accumulated digit buffers, are modelled as exact functions on digit
lists (rationals stand in for doubles; every numeric literal relevant
to a claim is exactly representable).
-/

namespace Mytoml

/-- MYTOML_MAX_ID_LENGTH from mytoml.h. -/
def MYTOML_MAX_ID_LENGTH : Nat := 256

/-- MYTOML_MAX_STRING_LENGTH from mytoml.h. -/
def MYTOML_MAX_STRING_LENGTH : Nat := 4096

/-- MYTOML_MAX_NUM_LINES from mytoml.h. -/
def MYTOML_MAX_NUM_LINES : Int := 16777216

/-- MYTOML_MAX_SUBKEYS from mytoml.h. -/
def MYTOML_MAX_SUBKEYS : Nat := 131072

/-- MYTOML_MAX_ARRAY_LENGTH from mytoml.h. -/
def MYTOML_MAX_ARRAY_LENGTH : Nat := 131072

/-- 2 to the 64: the modulus of the C type size_t on the 64-bit targets
the repository builds for. -/
def SIZE_MOD : Nat := 18446744073709551616

/-- The value of the C expression (size_t)(-1): new keys set idx = -1
into a size_t field (mytoml.c, value_new_key), which wraps to this. -/
def SIZE_NEG1 : Nat := 18446744073709551615

/-- Bytes of a Lean string, the form in which test inputs are written. -/
def bytes (s : String) : List Nat := s.data.map Char.toNat

/-- mytoml_is_whitesapce from mytoml.c (space or tab; the source spells
it this way). -/
def mytoml_is_whitesapce (c : Nat) : Bool := c == 32 || c == 9

/-- mytoml_is_newline from mytoml.c. -/
def mytoml_is_newline (c : Nat) : Bool := c == 10

/-- mytoml_is_return from mytoml.c. -/
def mytoml_is_return (c : Nat) : Bool := c == 13

/-- mytoml_is_digit from mytoml.c. -/
def mytoml_is_digit (c : Nat) : Bool := 48 ≤ c && c ≤ 57

/-- mytoml_is_hex_digit from mytoml.c: letters A-F and a-f only; the
decimal digits are checked separately by callers, as in the source. -/
def mytoml_is_hex_digit (c : Nat) : Bool :=
  (65 ≤ c && c ≤ 70) || (97 ≤ c && c ≤ 102)

/-- mytoml_is_bare_ascii from mytoml.c. -/
def mytoml_is_bare_ascii (c : Nat) : Bool :=
  (65 ≤ c && c ≤ 90) || (97 ≤ c && c ≤ 122) || c == 95 || c == 45 ||
    mytoml_is_digit c

/-- mytoml_is_control from mytoml.c.  In the source c is a signed char,
so bytes at and above 128 are negative and fail the c greater-equal 0
test; on naturals that corresponds to the ranges below. -/
def mytoml_is_control (c : Nat) : Bool :=
  c ≤ 8 || (10 ≤ c && c ≤ 31) || c == 127

/-- mytoml_is_control_multi from mytoml.c. -/
def mytoml_is_control_multi (c : Nat) : Bool :=
  c ≤ 8 || c == 11 || c == 12 || (14 ≤ c && c ≤ 31) || c == 127

/-- mytoml_is_control_literal from mytoml.c. -/
def mytoml_is_control_literal (c : Nat) : Bool :=
  (c != 9 && c != 10 && c ≤ 31) || c == 127

/-- mytoml_is_number_start from mytoml.c: plus, minus or digit. -/
def mytoml_is_number_start (c : Nat) : Bool :=
  c == 43 || c == 45 || mytoml_is_digit c

/-- mytoml_is_number_end from mytoml.c: membership of c in the
caller-supplied sentinel set. -/
def mytoml_is_number_end (c : Nat) (endSet : List Nat) : Bool :=
  endSet.contains c

/-- The value of a digit character in bases up to 36, as strtoul
understands digits (0-9, A-Z, a-z). -/
def digitValue (c : Nat) : Option Nat :=
  if 48 ≤ c ∧ c ≤ 57 then some (c - 48)
  else if 65 ≤ c ∧ c ≤ 90 then some (c - 55)
  else if 97 ≤ c ∧ c ≤ 122 then some (c - 87)
  else none

/-- Accumulate a run of digits valid in the given base; returns the
accumulated value, the count of digits consumed, and the rest. -/
def strtoulDigits : List Nat → Nat → Nat → Nat → Nat × Nat × List Nat
  | [], _, acc, cnt => (acc, cnt, [])
  | c :: rest, base, acc, cnt =>
    match digitValue c with
    | some d =>
      if d < base then strtoulDigits rest base (acc * base + d) (cnt + 1)
      else (acc, cnt, c :: rest)
    | none => (acc, cnt, c :: rest)

/-- Model of the libc strtoul on a byte buffer: optional sign, then
digits of the base; returns the converted value and the number of bytes
consumed (0 when no conversion was performed, matching end == nptr).
Values at or above 2 to the 64 saturate to ULONG_MAX and a minus sign
negates modulo 2 to the 64, as on the C targets. -/
def strtoulModel (val : List Nat) (base : Nat) : Nat × Nat :=
  let sgn : Bool × Nat × List Nat :=
    match val with
    | 43 :: r => (false, 1, r)
    | 45 :: r => (true, 1, r)
    | r => (false, 0, r)
  let acc := strtoulDigits sgn.2.2 base 0 0
  if acc.2.1 = 0 then (0, 0)
  else
    let clamped := if acc.1 < SIZE_MOD then acc.1 else SIZE_NEG1
    let v := if sgn.1 then (SIZE_MOD - clamped) % SIZE_MOD else clamped
    (v, sgn.2.1 + acc.2.1)

/-- A C double as the parser and serializer observe it: the two
infinities, NaN, or a finite value.  A finite value fin n d stands for
the exact rational n divided by 10 to the d (decimal scaling is all
the number parser produces); every literal a claim mentions is exactly
representable as a double, so no rounding is modelled. -/
inductive CDouble where
  | inf : CDouble
  | neginf : CDouble
  | nan : CDouble
  | fin : Int → Nat → CDouble
  deriving DecidableEq

/-- The C double equality operator: NaN compares unequal to everything
including itself; finite values compare as the rationals they stand
for, so negative and positive zero coincide. -/
def ceq : CDouble → CDouble → Bool
  | .inf, .inf => true
  | .neginf, .neginf => true
  | .fin a da, .fin b db => a * ((10 ^ db : Nat) : Int) == b * ((10 ^ da : Nat) : Int)
  | _, _ => false

/-- The C isnan predicate. -/
def cIsNan : CDouble → Bool
  | .nan => true
  | _ => false

/-- Accumulate a run of decimal digits; returns value, count, rest. -/
def takeDigits : List Nat → Nat → Nat → Nat × Nat × List Nat
  | [], acc, cnt => (acc, cnt, [])
  | c :: rest, acc, cnt =>
    if 48 ≤ c ∧ c ≤ 57 then takeDigits rest (acc * 10 + (c - 48)) (cnt + 1)
    else (acc, cnt, c :: rest)

/-- Model of the libc strtod on the digit buffers the number parser
accumulates: optional sign, integer digits, optional fraction, optional
exponent; returns the exact value (numerator and decimal scale) and
the bytes consumed (0 when no conversion was performed). -/
def strtodModel (val : List Nat) : CDouble × Nat :=
  let sgn : Int × Nat × List Nat :=
    match val with
    | 43 :: r => (1, 1, r)
    | 45 :: r => (-1, 1, r)
    | r => (1, 0, r)
  let ipart := takeDigits sgn.2.2 0 0
  let fpart : Nat × Nat × Nat × List Nat :=
    match ipart.2.2 with
    | 46 :: r =>
      let f := takeDigits r 0 0
      (f.1, f.2.1, 1, f.2.2)
    | r => (0, 0, 0, r)
  if ipart.2.1 + fpart.2.1 = 0 then (CDouble.fin 0 0, 0)
  else
    let num : Int := sgn.1 * ((ipart.1 * 10 ^ fpart.2.1 + fpart.1 : Nat) : Int)
    let den : Nat := fpart.2.1
    let baseCnt := sgn.2.1 + ipart.2.1 + fpart.2.2.1 + fpart.2.1
    match fpart.2.2.2 with
    | e :: r4 =>
      if e = 101 ∨ e = 69 then
        let esgn : Bool × Nat × List Nat :=
          match r4 with
          | 43 :: r => (false, 1, r)
          | 45 :: r => (true, 1, r)
          | r => (false, 0, r)
        let ev := takeDigits esgn.2.2 0 0
        if ev.2.1 = 0 then (CDouble.fin num den, baseCnt)
        else
          let scaled : CDouble :=
            if esgn.1 then CDouble.fin num (den + ev.1)
            else CDouble.fin (num * ((10 ^ ev.1 : Nat) : Int)) den
          (scaled, baseCnt + 1 + esgn.2.1 + ev.2.1)
      else (CDouble.fin num den, baseCnt)
    | [] => (CDouble.fin num den, baseCnt)

/-- The Tokenizer struct of mytoml.c: the loaded byte buffer, the
cursor, the last three bytes read, the has-token flag (is_null in the
source), the fresh-line flag, line and column counters, and the
per-line length table (a total function standing for the int array,
all zero initially). -/
structure Tokenizer where
  stream : List Nat
  cursor : Nat
  token : Nat
  prev : Nat
  prev_prev : Nat
  is_null : Bool
  nl : Bool
  line : Int
  col : Int
  lines : Int → Int

/-- mytoml_new_tokenizer from mytoml.c: calloc zeroes every field, then
the constructor re-assigns the ones shown. -/
def mytoml_new_tokenizer (s : List Nat) : Tokenizer :=
  { stream := s, cursor := 0, token := 0, prev := 0, prev_prev := 0,
    is_null := true, nl := false, line := 0, col := 0, lines := fun _ => 0 }

/-- Pointwise update of the line-length table. -/
def updFn (f : Int → Int) (i v : Int) : Int → Int :=
  fun j => if j = i then v else f j

/-- mytoml_tokenizer_next_token from mytoml.c.  Shifts prev_prev and
prev unconditionally; when a token is available it reads the byte at
the cursor (reading the 0xFF sentinel, the char cast of EOF, turns the
token into NUL and clears is_null), maintains the fresh-line flag, the
line and column counters and the line-length table, and returns 1;
otherwise returns 0. -/
def mytoml_tokenizer_next_token (t : Tokenizer) : Tokenizer × Nat :=
  let pp := t.prev
  let pv := t.token
  if t.is_null = true ∨ t.cursor = 0 then
    let c := t.stream.getD t.cursor 0
    let nl0 := if t.nl = true ∧ pv ≠ 0 ∧ pv ≠ 32 ∧ pv ≠ 9 ∧ pv ≠ 10
      then false else t.nl
    let nl1 := if c = 10 then true else nl0
    let lcl : Int × Int × (Int → Int) :=
      if pv = 10 then
        (t.line + 1, 0,
          if t.line < MYTOML_MAX_NUM_LINES then updFn t.lines t.line t.col
          else t.lines)
      else (t.line, t.col + 1, t.lines)
    let te : Nat × Bool := if c = 255 then (0, false) else (c, t.is_null)
    ({ stream := t.stream, cursor := t.cursor + 1, token := te.1, prev := pv,
       prev_prev := pp, is_null := te.2, nl := nl1, line := lcl.1,
       col := lcl.2.1, lines := lcl.2.2 }, 1)
  else
    ({ t with prev_prev := pp, prev := pv }, 0)

/-- Advance the tokenizer, discarding the returned flag (the common C
call pattern). -/
def advance (t : Tokenizer) : Tokenizer :=
  (mytoml_tokenizer_next_token t).1

/-- Advance n times (used to state the backtrace round-trip claim). -/
def advanceN : Nat → Tokenizer → Tokenizer
  | 0, t => t
  | k + 1, t => advanceN k (advance t)

/-- The column-restoration loop inside mytoml_tokenizer_backtrace:
while line is non-negative and pre_count exceeds col, walk one recorded
line back.  Returns the final line, pre_count and col.  The loop
decrements line each iteration and stops once it is negative, so it
runs at most line plus 1 times; the first argument is a structural
bound on the iteration count, and the caller passes more than that. -/
def btLoop : Nat → (Int → Int) → Int → Int → Int → Int × Int × Int
  | 0, _, line, pre, col => (line, pre, col)
  | f + 1, lines, line, pre, col =>
    if 0 ≤ line ∧ col < pre then
      btLoop f lines (line - 1) (pre - col) (lines (line - 1))
    else (line, pre, col)

/-- mytoml_tokenizer_backtrace from mytoml.c: when count is positive
and the cursor strictly exceeds count plus 2, move the cursor back by
count plus 2, restore line and column by walking the line-length table,
clamp both at zero, and advance twice to refill prev_prev, prev and
token.  Otherwise only an error is logged and the state is unchanged. -/
def mytoml_tokenizer_backtrace (t : Tokenizer) (count : Int) : Tokenizer :=
  let pre : Int := count + 2
  if 0 < count ∧ pre < (t.cursor : Int) then
    let t1 : Tokenizer :=
      { t with cursor := ((t.cursor : Int) - pre).toNat, is_null := true }
    let r := btLoop (t.line.toNat + 2) t.lines t.line pre t.col
    let col2 := r.2.2 - r.2.1
    let line2 : Int := if r.1 < 0 then 0 else r.1
    let col3 : Int := if col2 < 0 then 0 else col2
    advance (advance { t1 with line := line2, col := col3 })
  else t

/-- TomlValueType_t from mytoml.h, in source order. -/
inductive TomlValueType where
  | INT | BOOL | FLOAT | ARRAY | STRING | DATETIME | DATELOCAL
  | TIMELOCAL | INLINETABLE | DATETIMELOCAL
  deriving DecidableEq

/-- TomlKeyType_t from mytoml.h, in source order. -/
inductive TomlKeyType where
  | KEY | TABLE | KEYLEAF | TABLELEAF | ARRAYTABLE
  deriving DecidableEq

mutual

/-- The void-pointer payload of TomlValue_t: absent, a double, a byte
string, the key node held by an inline table, or a datetime record
(format string and milliseconds; the broken-down tm is not needed by
any claim). -/
inductive TomlData where
  | nodata : TomlData
  | num : CDouble → TomlData
  | str : List Nat → TomlData
  | table : TomlKey → TomlData
  | dtv : List Nat → Int → TomlData

/-- TomlValue_t from mytoml.h: type tag, element array, payload,
numeric precision and scientific flag. -/
inductive TomlValue where
  | mk : TomlValueType → List TomlValue → TomlData → Nat → Bool → TomlValue

/-- TomlKey_t from mytoml.h: type tag, identifier, subkey map (an
association list standing for the khash map, in insertion order),
optional value, and the size_t array-table index. -/
inductive TomlKey where
  | mk : TomlKeyType → List Nat → List (List Nat × TomlKey) →
      Option TomlValue → Nat → TomlKey

end

/-- The type tag of a value. -/
def TomlValue.vtype : TomlValue → TomlValueType
  | .mk ty _ _ _ _ => ty

/-- The element array of a value. -/
def TomlValue.arr : TomlValue → List TomlValue
  | .mk _ a _ _ _ => a

/-- The payload of a value. -/
def TomlValue.data : TomlValue → TomlData
  | .mk _ _ d _ _ => d

/-- The stored precision of a value. -/
def TomlValue.precision : TomlValue → Nat
  | .mk _ _ _ p _ => p

/-- The scientific-notation flag of a value. -/
def TomlValue.scientific : TomlValue → Bool
  | .mk _ _ _ _ s => s

/-- Replace the element array of a value. -/
def TomlValue.withArr : TomlValue → List TomlValue → TomlValue
  | .mk ty _ d p s, a => .mk ty a d p s

/-- Replace the payload of a value. -/
def TomlValue.withData : TomlValue → TomlData → TomlValue
  | .mk ty a _ p s, d => .mk ty a d p s

/-- The type tag of a key node. -/
def TomlKey.ktype : TomlKey → TomlKeyType
  | .mk ty _ _ _ _ => ty

/-- The identifier of a key node. -/
def TomlKey.id : TomlKey → List Nat
  | .mk _ i _ _ _ => i

/-- The subkey map of a key node. -/
def TomlKey.subkeys : TomlKey → List (List Nat × TomlKey)
  | .mk _ _ s _ _ => s

/-- The value of a key node. -/
def TomlKey.value : TomlKey → Option TomlValue
  | .mk _ _ _ v _ => v

/-- The array-table index of a key node. -/
def TomlKey.idx : TomlKey → Nat
  | .mk _ _ _ _ i => i

/-- Replace the type tag of a key node. -/
def TomlKey.withType : TomlKey → TomlKeyType → TomlKey
  | .mk _ i s v x, ty => .mk ty i s v x

/-- Replace the subkey map of a key node. -/
def TomlKey.withSubkeys : TomlKey → List (List Nat × TomlKey) → TomlKey
  | .mk ty i _ v x, s => .mk ty i s v x

/-- Replace the value of a key node. -/
def TomlKey.withValue : TomlKey → Option TomlValue → TomlKey
  | .mk ty i s _ x, v => .mk ty i s v x

/-- Replace the array-table index of a key node. -/
def TomlKey.withIdx : TomlKey → Nat → TomlKey
  | .mk ty i s v _, x => .mk ty i s v x

/-- mytoml_value_new_key from mytoml.c: fresh node of the given type,
empty identifier and subkey map, no value, idx set to -1 which the
size_t field stores as 2 to the 64 minus 1. -/
def mytoml_value_new_key (ty : TomlKeyType) : TomlKey :=
  .mk ty [] [] none SIZE_NEG1

/-- A fresh key of the given type carrying the identifier copied in by
the callers of value_new_key (the memcpy into subkey id). -/
def newKeyWithId (ty : TomlKeyType) (id : List Nat) : TomlKey :=
  .mk ty id [] none SIZE_NEG1

/-- mytoml_value_new_string from mytoml.c. -/
def mytoml_value_new_string (s : List Nat) : TomlValue :=
  .mk .STRING [] (.str s) 0 false

/-- mytoml_value_new_number from mytoml.c. -/
def mytoml_value_new_number (d : CDouble) (ty : TomlValueType)
    (precision : Nat) (scientific : Bool) : TomlValue :=
  .mk ty [] (.num d) precision scientific

/-- mytoml_value_new_array from mytoml.c: empty array value. -/
def mytoml_value_new_array : TomlValue :=
  .mk .ARRAY [] .nodata 0 false

/-- Lookup of an identifier in a subkey map: kh_get on the string-keyed
khash map, which compares whole identifiers. -/
def subkeyFind : List (List Nat × TomlKey) → List Nat → Option TomlKey
  | [], _ => none
  | (i, k) :: rest, id => if i = id then some k else subkeyFind rest id

/-- Replace the entry of an identifier in a subkey map (the effect of
mutating the node a khash slot points to). -/
def updateSubkey : List (List Nat × TomlKey) → List Nat → TomlKey →
    List (List Nat × TomlKey)
  | [], _, _ => []
  | (i, k) :: rest, id, v =>
    if i = id then (i, v) :: rest else (i, k) :: updateSubkey rest id v

/-- Set index i of a value list; appends when i is the length (the C
code writes into a preallocated slot just past the used prefix). -/
def listSet : List TomlValue → Nat → TomlValue → List TomlValue
  | [], _, v => [v]
  | _ :: rest, 0, v => v :: rest
  | x :: rest, i + 1, v => x :: listSet rest i v

/-- mytoml_value_keys_compatible from mytoml.c: the key-redefinition
decision on the types of the existing and the newly parsed subkey. -/
def mytoml_value_keys_compatible (existing current : TomlKeyType) : Bool :=
  if existing = .KEYLEAF then false
  else if existing = .TABLELEAF ∧ current = .TABLELEAF then false
  else if (existing = .TABLELEAF ∨ existing = .KEY) ∧ current = .TABLE then
    true
  else if existing = .TABLE ∧ current = .TABLELEAF then true
  else if existing = .ARRAYTABLE ∧ current = .TABLE then true
  else if current = existing then true
  else false

/-- One step of a path through the AST: into a named subkey, or from an
array-table node into the pseudo key of row i of its value array.  C
returns pointers into the tree; paths from the root represent them. -/
inductive PathElem where
  | child : List Nat → PathElem
  | row : Nat → PathElem

/-- A pointer into the AST, as the list of steps from the root. -/
abbrev KPath := List PathElem

mutual

/-- Nesting depth of a key node (one more than the depth of its
deepest subkey or value). -/
def TomlKey.depth : TomlKey → Nat
  | .mk _ _ subs v _ => (depthSubs subs).max (depthOptValue v) + 1

/-- Nesting depth of a subkey map. -/
def depthSubs : List (List Nat × TomlKey) → Nat
  | [] => 0
  | (_, k) :: rest => (TomlKey.depth k).max (depthSubs rest)

/-- Nesting depth of an optional value. -/
def depthOptValue : Option TomlValue → Nat
  | none => 0
  | some v => TomlValue.depth v

/-- Nesting depth of a value. -/
def TomlValue.depth : TomlValue → Nat
  | .mk _ arr d _ _ => (depthArr arr).max (TomlData.depth d) + 1

/-- Nesting depth of a value array. -/
def depthArr : List TomlValue → Nat
  | [] => 0
  | v :: rest => (TomlValue.depth v).max (depthArr rest)

/-- Nesting depth of a payload. -/
def TomlData.depth : TomlData → Nat
  | .table k => TomlKey.depth k + 1
  | _ => 0

end

/-- The body of mytoml_value_add_sub_key, structurally recursive on a
bound for the recursion depth.  The C function recurses only from an
ARRAYTABLE node into the pseudo key nested inside its value array, a
node of strictly smaller depth, so the wrapper below passes a
sufficient bound and the fuel-zero default is unreachable from it. -/
def mytoml_value_add_sub_key_go : Nat → TomlKey → TomlKey →
    Option (TomlKey × KPath)
  | 0, _, _ => none
  | f + 1, key, sub =>
    match subkeyFind key.subkeys sub.id with
    | some s =>
      if mytoml_value_keys_compatible s.ktype sub.ktype then
        if sub.ktype = .TABLELEAF then
          some (key.withSubkeys
            (updateSubkey key.subkeys sub.id (s.withType .TABLELEAF)),
            [.child sub.id])
        else some (key, [.child sub.id])
      else none
    | none =>
      if key.subkeys.length < MYTOML_MAX_SUBKEYS then
        if key.ktype = .ARRAYTABLE then
          match key.value with
          | some v =>
            match v.arr.get? key.idx with
            | some row =>
              match row.data with
              | .table h =>
                match mytoml_value_add_sub_key_go f h sub with
                | some (h1, p) =>
                  some (key.withValue (some (v.withArr
                    (listSet v.arr key.idx (row.withData (.table h1))))),
                    .row key.idx :: p)
                | none => none
              | _ => none
            | none => none
          | none => none
        else some (key.withSubkeys (key.subkeys ++ [(sub.id, sub)]),
          [.child sub.id])
      else none

/-- mytoml_value_add_sub_key from mytoml.c.  If a subkey with the same
identifier exists, the compatibility table decides: on success the
existing node is returned (upgraded to TABLELEAF when the new subkey is
a TABLELEAF), otherwise NULL.  If absent and the map is not full, an
ARRAYTABLE parent delegates to the pseudo key of its active row,
otherwise the subkey is inserted.  Returns the updated parent and the
path of the returned node relative to the parent. -/
def mytoml_value_add_sub_key (key sub : TomlKey) :
    Option (TomlKey × KPath) :=
  mytoml_value_add_sub_key_go (TomlKey.depth key) key sub

/-- Read the node a path points to. -/
def getAt (k : TomlKey) : KPath → Option TomlKey
  | [] => some k
  | .child id :: rest =>
    match subkeyFind k.subkeys id with
    | some c => getAt c rest
    | none => none
  | .row i :: rest =>
    match k.value with
    | some v =>
      match v.arr.get? i with
      | some row =>
        match row.data with
        | .table h => getAt h rest
        | _ => none
      | none => none
    | none => none

/-- Rewrite the node a path points to. -/
def modifyAt (k : TomlKey) (p : KPath) (f : TomlKey → TomlKey) :
    Option TomlKey :=
  match p with
  | [] => some (f k)
  | .child id :: rest =>
    match subkeyFind k.subkeys id with
    | some c =>
      match modifyAt c rest f with
      | some c1 => some (k.withSubkeys (updateSubkey k.subkeys id c1))
      | none => none
    | none => none
  | .row i :: rest =>
    match k.value with
    | some v =>
      match v.arr.get? i with
      | some row =>
        match row.data with
        | .table h =>
          match modifyAt h rest f with
          | some h1 =>
            some (k.withValue (some (v.withArr
              (listSet v.arr i (row.withData (.table h1))))))
          | none => none
        | _ => none
      | none => none
    | none => none

/-- Apply add_sub_key at the node a path addresses; returns the new
root and the absolute path of the returned node. -/
def addSubKeyAt (root : TomlKey) (p : KPath) (sub : TomlKey) :
    Option (TomlKey × KPath) :=
  match getAt root p with
  | none => none
  | some node =>
    match mytoml_value_add_sub_key node sub with
    | none => none
    | some (node1, ext) =>
      match modifyAt root p (fun _ => node1) with
      | some root1 => some (root1, p ++ ext)
      | none => none

/-- Set the value field of the node a path addresses. -/
def setValueAt (root : TomlKey) (p : KPath) (v : Option TomlValue) :
    Option TomlKey :=
  modifyAt root p (fun k => k.withValue v)

/-- Set the type tag of the node a path addresses. -/
def setTypeAt (root : TomlKey) (p : KPath) (ty : TomlKeyType) :
    Option TomlKey :=
  modifyAt root p (fun k => k.withType ty)

/-- mytoml_value_new_table from mytoml.c: a fresh KEY node absorbs the
subkeys of the parsed container (add_sub_key results are discarded on
failure, as the C return value is ignored), and becomes the payload of
an INLINETABLE value. -/
def mytoml_value_new_table (k : TomlKey) : TomlValue :=
  let h := k.subkeys.foldl
    (fun h e =>
      match mytoml_value_add_sub_key h e.2 with
      | some (h1, _) => h1
      | none => h)
    (mytoml_value_new_key .KEY)
  .mk .INLINETABLE [] (.table h) 0 false

/-- The per-row pseudo table pushed for each array-of-tables header:
value_new_table applied to a fresh TABLE key (mytoml.c, parser loop). -/
def pushRow (k : TomlKey) : TomlKey :=
  let ni := (k.idx + 1) % SIZE_MOD
  match k.value with
  | some v =>
    (k.withIdx ni).withValue (some (v.withArr
      (listSet v.arr ni (mytoml_value_new_table
        (mytoml_value_new_key .TABLE)))))
  | none => k

/-- toml_get_key from mytoml.c: NULL propagates; a node whose own
identifier matches is returned itself; otherwise the khash lookup of
the immediate subkeys decides. -/
def toml_get_key (key : Option TomlKey) (id : List Nat) : Option TomlKey :=
  match key with
  | none => none
  | some k => if k.id = id then some k else subkeyFind k.subkeys id

/-- mytoml_parser_parse_whitespace from mytoml.c: consume the run of
spaces and tabs under the cursor.  All looping parser routines take a
fuel argument standing for the C while loops; every concrete run below
is given ample fuel. -/
def mytoml_parser_parse_whitespace : Nat → Tokenizer → Tokenizer
  | 0, t => t
  | f + 1, t =>
    if t.is_null = true ∧ mytoml_is_whitesapce t.token = true then
      mytoml_parser_parse_whitespace f (advance t)
    else t

/-- mytoml_parser_parse_newline from mytoml.c: true on a bare newline;
on a carriage return, peek one token and either confirm the newline or
backtrace; note the peek mutates the tokenizer, as in the source. -/
def mytoml_parser_parse_newline (t : Tokenizer) : Tokenizer × Bool :=
  if t.token = 10 then (t, true)
  else if t.token = 13 then
    let r := mytoml_tokenizer_next_token t
    if r.1.token = 10 then (r.1, true)
    else (mytoml_tokenizer_backtrace r.1 (r.2 : Int), false)
  else (t, false)

/-- mytoml_parser_parse_comment from mytoml.c: consume until a newline
(valid), a control character (invalid), or end of input (valid). -/
def mytoml_parser_parse_comment : Nat → Tokenizer → Tokenizer × Bool
  | 0, t => (t, false)
  | f + 1, t =>
    if t.is_null = true then
      let t1 := advance t
      let r := mytoml_parser_parse_newline t1
      if r.2 = true then (advance r.1, true)
      else if mytoml_is_control r.1.token = true then (r.1, false)
      else mytoml_parser_parse_comment f r.1
    else (t, true)

/-- mytoml_parser_parse_unicode from mytoml.c: read 4 or 8 hex digits
and UTF-8 encode the scalar into the escape buffer; the returned list
is the written bytes, empty on failure (the C return value 0).  The
one-byte case fires only for the scalar 0 because the source tests
num at most 0 (its misprint of 0x80), all other scalars up to 0x7F
falling through to the four-byte arm, exactly as the C does. -/
def mytoml_parser_parse_unicode : Nat → Tokenizer → Int → List Nat →
    Tokenizer × List Nat
  | 0, t, _, _ => (t, [])
  | f + 1, t, len, code =>
    if t.is_null = true then
      if 8 < code.length then (t, [])
      else if mytoml_is_hex_digit t.token = true ∨
          mytoml_is_digit t.token = true then
        mytoml_parser_parse_unicode f (advance t) len (code ++ [t.token])
      else
        if code.length ≠ 4 ∧ code.length ≠ 8 then (t, [])
        else
          let r := strtoulModel code 16
          if r.2 ≠ code.length then (t, [])
          else
            let num := r.1
            if num ≤ 0xD7FF ∨ (0xE000 ≤ num ∧ num ≤ 0x10FFFF) then
              if num = 0 then
                if len < 1 then (t, []) else (t, [num &&& 0x7F])
              else if 0x80 ≤ num ∧ num ≤ 0x7FF then
                if len < 2 then (t, [])
                else (t, [(0xC0 ||| (num >>> 6)) &&& 0xDF,
                  (0x80 ||| num) &&& 0xBF])
              else if 0x800 ≤ num ∧ num ≤ 0xFFFF then
                if len < 3 then (t, [])
                else (t, [(0xE0 ||| (num >>> 12)) &&& 0xEF,
                  (0x80 ||| (num >>> 6)) &&& 0xBF,
                  (0x80 ||| num) &&& 0xBF])
              else
                if len < 4 then (t, [])
                else (t, [(0xF0 ||| (num >>> 18)) &&& 0xF7,
                  (0x80 ||| (num >>> 12)) &&& 0xBF,
                  (0x80 ||| (num >>> 6)) &&& 0xBF,
                  (0x80 ||| num) &&& 0xBF])
            else (t, [])
    else (t, [])

/-- mytoml_parser_parse_escape from mytoml.c: decode one escape
character after the backslash; unicode escapes delegate.  The returned
list holds the decoded bytes; empty means the C return value 0. -/
def mytoml_parser_parse_escape (f : Nat) (t : Tokenizer) (len : Int) :
    Tokenizer × List Nat :=
  if len < 1 then (t, [])
  else
    match t.token with
    | 98 => (advance t, [8])
    | 116 => (advance t, [9])
    | 110 => (advance t, [10])
    | 102 => (advance t, [12])
    | 114 => (advance t, [13])
    | 34 => (advance t, [34])
    | 92 => (advance t, [92])
    | 117 => mytoml_parser_parse_unicode f (advance t) len []
    | 85 => mytoml_parser_parse_unicode f (advance t) len []
    | _ => (t, [])

/-- The line-continuation loop inside parse_basic_string: after a
backslash that decoded to nothing in multi-line mode, skip whitespace
and newlines, requiring at least one newline (the hit flag); returns
none when no newline was crossed.  Condition and body each call the
newline test separately, as the C does. -/
def lineContLoop : Nat → Tokenizer → Bool → Option Tokenizer
  | 0, _, _ => none
  | f + 1, t, hit =>
    if mytoml_is_whitesapce t.token = true then
      let t1 := mytoml_parser_parse_whitespace f t
      let r := mytoml_parser_parse_newline t1
      if r.2 = true then lineContLoop f (advance r.1) true
      else lineContLoop f r.1 hit
    else
      let c := mytoml_parser_parse_newline t
      if c.2 = true then
        let t1 := if mytoml_is_whitesapce c.1.token = true then
          mytoml_parser_parse_whitespace f c.1 else c.1
        let r := mytoml_parser_parse_newline t1
        if r.2 = true then lineContLoop f (advance r.1) true
        else lineContLoop f r.1 hit
      else
        if hit = true then some c.1 else none

/-- mytoml_parser_parse_basic_string from mytoml.c: accumulate bytes of
a basic string until the closing quote (or the closing triple quote in
multi-line mode, with up to two literal quotes absorbed before it);
newlines are fatal in single-line mode and are skipped while the value
is still empty in multi-line mode; escapes decode through parse_escape,
with the backslash-newline line continuation; controls are fatal. -/
def mytoml_parser_parse_basic_string : Nat → Tokenizer → List Nat → Bool →
    Option (Tokenizer × List Nat)
  | 0, _, _, _ => none
  | f + 1, t, val, multi =>
    if t.is_null = true then
      if val.length < MYTOML_MAX_STRING_LENGTH then
        if t.token = 34 then
          if multi = false then some (advance t, val)
          else
            let r1 := mytoml_tokenizer_next_token t
            let r2 := mytoml_tokenizer_next_token r1.1
            let t2 := r2.1
            if t2.token = 34 ∧ t2.prev = 34 then
              let t3 := advance t2
              let s1 : Tokenizer × List Nat :=
                if t3.token = 34 then (advance t3, val ++ [34]) else (t3, val)
              if s1.2.length < MYTOML_MAX_STRING_LENGTH then
                let s2 : Tokenizer × List Nat :=
                  if s1.1.token = 34 then (advance s1.1, s1.2 ++ [34])
                  else (s1.1, s1.2)
                some (s2.1, s2.2)
              else none
            else
              mytoml_parser_parse_basic_string f
                (mytoml_tokenizer_backtrace t2 ((r1.2 : Int) + (r2.2 : Int) - 1))
                (val ++ [34]) multi
        else
          let n1 := mytoml_parser_parse_newline t
          if n1.2 = true ∧ multi = false then none
          else
            let n2 := mytoml_parser_parse_newline n1.1
            if n2.2 = true ∧ multi = true ∧ val.length = 0 then
              mytoml_parser_parse_basic_string f (advance n2.1) val multi
            else
              let tb := n2.1
              if tb.token = 92 then
                let tc := advance tb
                let e := mytoml_parser_parse_escape f tc 5
                if multi = true ∧ e.2.length = 0 then
                  match lineContLoop f e.1 false with
                  | some td => mytoml_parser_parse_basic_string f td val multi
                  | none => none
                else
                  if e.2.length = 0 then none
                  else if 5 ≤ e.2.length then none
                  else if MYTOML_MAX_STRING_LENGTH ≤ val.length + e.2.length
                    then none
                  else
                    mytoml_parser_parse_basic_string f
                      (advance (mytoml_tokenizer_backtrace e.1 1))
                      (val ++ e.2) multi
              else if multi = false ∧ mytoml_is_control tb.token = true then
                none
              else if multi = true ∧ mytoml_is_control_multi tb.token = true
                then none
              else
                mytoml_parser_parse_basic_string f (advance tb)
                  (val ++ [tb.token]) multi
      else none
    else none

/-- mytoml_parser_parse_literal_string from mytoml.c: like the basic
string but delimited by single quotes, with no escape processing and
the literal-string control test. -/
def mytoml_parser_parse_literal_string : Nat → Tokenizer → List Nat → Bool →
    Option (Tokenizer × List Nat)
  | 0, _, _, _ => none
  | f + 1, t, val, multi =>
    if t.is_null = true then
      if val.length < MYTOML_MAX_STRING_LENGTH then
        if t.token = 39 then
          if multi = false then some (advance t, val)
          else
            let r1 := mytoml_tokenizer_next_token t
            let r2 := mytoml_tokenizer_next_token r1.1
            let t2 := r2.1
            if t2.token = 39 ∧ t2.prev = 39 then
              let t3 := advance t2
              let s1 : Tokenizer × List Nat :=
                if t3.token = 39 then (advance t3, val ++ [39]) else (t3, val)
              if s1.2.length < MYTOML_MAX_STRING_LENGTH then
                let s2 : Tokenizer × List Nat :=
                  if s1.1.token = 39 then (advance s1.1, s1.2 ++ [39])
                  else (s1.1, s1.2)
                some (s2.1, s2.2)
              else none
            else
              mytoml_parser_parse_literal_string f
                (mytoml_tokenizer_backtrace t2 ((r1.2 : Int) + (r2.2 : Int) - 1))
                (val ++ [39]) multi
        else
          let n1 := mytoml_parser_parse_newline t
          if n1.2 = true ∧ multi = false then none
          else
            let n2 := mytoml_parser_parse_newline n1.1
            if n2.2 = true ∧ multi = true ∧ val.length = 0 then
              mytoml_parser_parse_literal_string f (advance n2.1) val multi
            else
              let tb := n2.1
              if mytoml_is_control_literal tb.token = true then none
              else
                mytoml_parser_parse_literal_string f (advance tb)
                  (val ++ [tb.token]) multi
      else none
    else none

/-- mytoml_parser_parse_lnf_nan from mytoml.c: recognize inf and nan
after their first letter, honouring the caller-detected sign; an
unrecognized spelling leaves the result at 0.0. -/
def mytoml_parser_parse_lnf_nan (t : Tokenizer) (negative : Bool) :
    Tokenizer × CDouble :=
  let s1 : Tokenizer × CDouble :=
    if t.token = 105 then
      let ta := advance (advance t)
      if ta.prev = 110 ∧ ta.token = 102 then
        (ta, if negative then CDouble.neginf else CDouble.inf)
      else (ta, CDouble.fin 0 0)
    else (t, CDouble.fin 0 0)
  let s2 : Tokenizer × CDouble :=
    if s1.1.token = 110 then
      let tb := advance (advance s1.1)
      if tb.prev = 97 ∧ tb.token = 110 then (tb, CDouble.nan)
      else (tb, s1.2)
    else (s1.1, s1.2)
  (advance s2.1, s2.2)

/-- mytoml_parser_parse_boolean from mytoml.c: spell out true or false;
the double result is 1.0 for true, 0.0 for false, 2.0 for neither. -/
def mytoml_parser_parse_boolean (t : Tokenizer) : Tokenizer × CDouble :=
  if t.token = 116 then
    let t3 := advance (advance (advance t))
    if t3.prev_prev ≠ 114 ∨ t3.prev ≠ 117 ∨ t3.token ≠ 101 then
      (advance t3, CDouble.fin 2 0)
    else (advance t3, CDouble.fin 1 0)
  else if t.token = 102 then
    let t3 := advance (advance (advance t))
    if t3.prev_prev ≠ 97 ∨ t3.prev ≠ 108 ∨ t3.token ≠ 115 then
      (advance t3, CDouble.fin 2 0)
    else
      let t4 := advance t3
      if t4.token = 101 then (advance t4, CDouble.fin 0 0)
      else (advance t4, CDouble.fin 2 0)
  else (advance t, CDouble.fin 2 0)

/-- mytoml_parser_parse_base_unit from mytoml.c: collect digits of a
hex, octal or binary literal up to a sentinel character, enforcing that
underscores sit between digits, then convert with strtoul; the double
result -1 signals failure, as in the source. -/
def mytoml_parser_parse_base_unit : Nat → Tokenizer → Nat → List Nat →
    List Nat → Tokenizer × CDouble
  | 0, t, _, _, _ => (t, CDouble.fin (-1) 0)
  | f + 1, t, base, val, numEnd =>
    if t.is_null = true then
      if MYTOML_MAX_STRING_LENGTH ≤ val.length then (t, CDouble.fin (-1) 0)
      else if mytoml_is_number_end t.token numEnd = true then
        if val.length = 0 then (t, CDouble.fin (-1) 0)
        else
          let r := strtoulModel val base
          if r.2 = val.length then (t, CDouble.fin (r.1 : Int) 0)
          else (t, CDouble.fin (-1) 0)
      else if t.token = 95 then
        let t1 := advance t
        if (mytoml_is_digit t1.token = true ∨
            (base = 16 ∧ mytoml_is_hex_digit t1.token = true)) ∧
           (mytoml_is_digit t1.prev_prev = true ∨
            (base = 16 ∧ mytoml_is_hex_digit t1.prev_prev = true)) then
          mytoml_parser_parse_base_unit f (advance t1) base
            (val ++ [t1.token]) numEnd
        else (t1, CDouble.fin (-1) 0)
      else
        mytoml_parser_parse_base_unit f (advance t) base
          (val ++ [t.token]) numEnd
    else (t, CDouble.fin (-1) 0)

/-- The epilogue of mytoml_parser_parse_number (the code after its
loop, identical to the sentinel branch inside it): convert the buffer
with strtod, adjust the stored precision, and reject a leading zero on
a non-zero integer, with the extra check after a sign. -/
def mytoml_parser_parse_number_fin (t : Tokenizer) (val : List Nat)
    (ty : TomlValueType) (prec : Nat) (sci : Bool) :
    Option (Tokenizer × CDouble × TomlValueType × Nat × Bool) :=
  let r := strtodModel val
  if r.2 ≠ val.length then none
  else
    let prec1 := if 0 < prec then prec - 1 else prec
    if ty = .INT ∧ ceq r.1 (CDouble.fin 0 0) = false then
      if val.headD 0 = 48 then none
      else if (val.headD 0 = 43 ∨ val.headD 0 = 45) ∧ val.getD 1 0 = 48 then
        none
      else some (t, r.1, ty, prec1, sci)
    else some (t, r.1, ty, prec1, sci)

/-- mytoml_parser_parse_number from mytoml.c: the decimal number loop.
A leading 0 dispatches on a base marker; a decimal point or underscore
requires digits on both sides and flips to FLOAT with precision
tracking; inf and nan are recognized after a sign; stray base-marker
letters abort into the epilogue; everything else is accumulated, e or E
flipping to scientific FLOAT.  The sentinel set ends the literal. -/
def mytoml_parser_parse_number : Nat → Tokenizer → List Nat → List Nat →
    TomlValueType → Nat → Bool →
    Option (Tokenizer × CDouble × TomlValueType × Nat × Bool)
  | 0, _, _, _, _, _, _ => none
  | f + 1, t, val, numEnd, ty, prec, sci =>
    if t.is_null = true then
      if MYTOML_MAX_STRING_LENGTH ≤ val.length then none
      else if mytoml_is_number_end t.token numEnd = true then
        mytoml_parser_parse_number_fin t val ty prec sci
      else if val.length = 0 ∧ t.token = 48 then
        let t1 := advance t
        if t1.token = 120 then
          let r := mytoml_parser_parse_base_unit f (advance t1) 16 val numEnd
          if ceq r.2 (CDouble.fin (-1) 0) = true then none
          else some (r.1, r.2, ty, prec, sci)
        else if t1.token = 111 then
          let r := mytoml_parser_parse_base_unit f (advance t1) 8 val numEnd
          if ceq r.2 (CDouble.fin (-1) 0) = true then none
          else some (r.1, r.2, ty, prec, sci)
        else if t1.token = 98 then
          let r := mytoml_parser_parse_base_unit f (advance t1) 2 val numEnd
          if ceq r.2 (CDouble.fin (-1) 0) = true then none
          else some (r.1, r.2, ty, prec, sci)
        else
          mytoml_parser_parse_number f t1 (val ++ [48]) numEnd ty prec sci
      else if t.token = 46 ∨ t.token = 95 then
        let step : List Nat × TomlValueType × Nat :=
          if t.token = 46 then (val ++ [46], .FLOAT, 1) else (val, ty, prec)
        if step.1.length < MYTOML_MAX_STRING_LENGTH then
          let t1 := advance t
          if mytoml_is_digit t1.token = true ∧
              mytoml_is_digit t1.prev_prev = true then
            let prec2 := if 0 < step.2.2 then step.2.2 + 1 else step.2.2
            mytoml_parser_parse_number f (advance t1) (step.1 ++ [t1.token])
              numEnd step.2.1 prec2 sci
          else none
        else none
      else if t.token = 105 ∨ t.token = 110 then
        if val.length = 1 ∧ (t.prev = 43 ∨ t.prev = 45) then
          let r := mytoml_parser_parse_lnf_nan t (t.prev = 45)
          if ceq r.2 (CDouble.fin 0 0) = true then
            mytoml_parser_parse_number_fin r.1 val ty prec sci
          else some (r.1, r.2, .FLOAT, 0, sci)
        else none
      else if t.token = 120 ∨ t.token = 88 ∨ t.token = 98 ∨ t.token = 66 ∨
          t.token = 111 ∨ t.token = 79 then
        mytoml_parser_parse_number_fin t val ty prec sci
      else
        let prec1 := if 0 < prec then prec + 1 else prec
        let tysci : TomlValueType × Bool :=
          if t.token = 101 ∨ t.token = 69 then (.FLOAT, true) else (ty, sci)
        mytoml_parser_parse_number f (advance t) (val ++ [t.token]) numEnd
          tysci.1 prec1 tysci.2
    else mytoml_parser_parse_number_fin t val ty prec sci

/-- mytoml_parser_parse_datetime from mytoml.c: accumulate bytes until
a sentinel (allowing a single interior space), then try the nine
datetime patterns.  No claim concerns datetimes, so the sscanf pattern
block is modelled as recognition failure; the accumulation and its
tokenizer effects are translated faithfully. -/
def mytoml_parser_parse_datetime : Nat → Tokenizer → List Nat → List Nat →
    Nat → Option (Tokenizer × TomlValue)
  | 0, _, _, _, _ => none
  | f + 1, t, val, numEnd, spaces =>
    if t.is_null = true then
      if MYTOML_MAX_STRING_LENGTH ≤ val.length then none
      else if (mytoml_is_whitesapce t.token = true ∧ spaces ≠ 0) ∨
          (mytoml_is_whitesapce t.token = false ∧
            mytoml_is_number_end t.token numEnd = true) then
        none
      else
        let spaces1 := if mytoml_is_whitesapce t.token = true then spaces + 1
          else spaces
        mytoml_parser_parse_datetime f (advance t) (val ++ [t.token]) numEnd
          spaces1
    else none

/-- mytoml_parser_bare_key from mytoml.c: accumulate bare-ASCII bytes
of one dotted-path segment; a dot yields a branch-typed key, the end
character a leaf-typed key; interior whitespace sets the done flag so
that further segment characters are rejected. -/
def mytoml_parser_bare_key : Nat → Tokenizer → Nat → TomlKeyType →
    TomlKeyType → List Nat → Bool → Option (Tokenizer × TomlKey)
  | 0, _, _, _, _, _, _ => none
  | f + 1, t, e, br, lf, id, done =>
    if t.is_null = true then
      if id.length < MYTOML_MAX_ID_LENGTH then
        if t.token = 46 then
          if id.length ≠ 0 then some (t, newKeyWithId br id) else none
        else if t.token = e then
          if id.length ≠ 0 then some (t, newKeyWithId lf id) else none
        else if mytoml_is_whitesapce t.token = true then
          mytoml_parser_bare_key f (mytoml_parser_parse_whitespace f t) e br
            lf id true
        else if mytoml_is_bare_ascii t.token = true ∧ done = false then
          mytoml_parser_bare_key f (advance t) e br lf (id ++ [t.token]) done
        else none
      else none
    else none

/-- mytoml_parser_basic_quoted_key from mytoml.c: accumulate the bytes
of a basic-quoted segment up to the closing quote, decoding escapes;
after the quote, optional whitespace, then a dot or the end character
selects the key type. -/
def mytoml_parser_basic_quoted_key : Nat → Tokenizer → Nat → TomlKeyType →
    TomlKeyType → List Nat → Option (Tokenizer × TomlKey)
  | 0, _, _, _, _, _ => none
  | f + 1, t, e, br, lf, id =>
    if t.is_null = true then
      if id.length < MYTOML_MAX_ID_LENGTH then
        if t.token = 34 then
          let t1 := advance t
          let t2 := if mytoml_is_whitesapce t1.token = true then
            mytoml_parser_parse_whitespace f t1 else t1
          if t2.token = 46 then some (t2, newKeyWithId br id)
          else if t2.token = e then some (t2, newKeyWithId lf id)
          else none
        else if t.token = 10 then none
        else if t.token = 92 then
          let t1 := advance t
          let r := mytoml_parser_parse_escape f t1 5
          if r.2.length = 0 then none
          else if 5 ≤ r.2.length then none
          else if MYTOML_MAX_ID_LENGTH ≤ id.length + r.2.length then none
          else
            mytoml_parser_basic_quoted_key f
              (advance (mytoml_tokenizer_backtrace r.1 1)) e br lf
              (id ++ r.2)
        else if mytoml_is_control t.token = true then none
        else
          mytoml_parser_basic_quoted_key f (advance t) e br lf
            (id ++ [t.token])
      else none
    else none

/-- mytoml_parser_literal_quoted_key from mytoml.c: the literal-quoted
variant, with no escapes and the literal control test. -/
def mytoml_parser_literal_quoted_key : Nat → Tokenizer → Nat → TomlKeyType →
    TomlKeyType → List Nat → Option (Tokenizer × TomlKey)
  | 0, _, _, _, _, _ => none
  | f + 1, t, e, br, lf, id =>
    if t.is_null = true then
      if id.length < MYTOML_MAX_ID_LENGTH then
        if t.token = 39 then
          let t1 := advance t
          let t2 := if mytoml_is_whitesapce t1.token = true then
            mytoml_parser_parse_whitespace f t1 else t1
          if t2.token = 46 then some (t2, newKeyWithId br id)
          else if t2.token = e then some (t2, newKeyWithId lf id)
          else none
        else if t.token = 10 then none
        else if mytoml_is_control_literal t.token = true then none
        else
          mytoml_parser_literal_quoted_key f (advance t) e br lf
            (id ++ [t.token])
      else none
    else none

/-- mytoml_parser_parse_key from mytoml.c: walk a dotted key path from
the node the path addresses, creating or merging one KEY or KEYLEAF
segment at a time through add_sub_key, until the equals sign.  The C
pointer arguments and result are rendered as the tree root plus a
path. -/
def mytoml_parser_parse_key : Nat → Tokenizer → TomlKey → KPath → Bool →
    Option (Tokenizer × TomlKey × KPath)
  | 0, _, _, _, _ => none
  | f + 1, t, root, p, expecting =>
    if t.is_null = true then
      if t.token = 61 then
        if expecting = true then none else some (advance t, root, p)
      else if t.token = 46 then
        if expecting = true then none
        else mytoml_parser_parse_key f (advance t) root p true
      else if mytoml_is_whitesapce t.token = true then
        mytoml_parser_parse_key f (mytoml_parser_parse_whitespace f t) root p
          expecting
      else if t.token = 34 then
        match mytoml_parser_basic_quoted_key f (advance t) 61 .KEY .KEYLEAF
          [] with
        | some (t1, sub) =>
          match addSubKeyAt root p sub with
          | some (root1, p1) => mytoml_parser_parse_key f t1 root1 p1 false
          | none => none
        | none => none
      else if t.token = 39 then
        match mytoml_parser_literal_quoted_key f (advance t) 61 .KEY .KEYLEAF
          [] with
        | some (t1, sub) =>
          match addSubKeyAt root p sub with
          | some (root1, p1) => mytoml_parser_parse_key f t1 root1 p1 false
          | none => none
        | none => none
      else
        match mytoml_parser_bare_key f t 61 .KEY .KEYLEAF [] false with
        | some (t1, sub) =>
          match addSubKeyAt root p sub with
          | some (root1, p1) => mytoml_parser_parse_key f t1 root1 p1 false
          | none => none
        | none => none
    else none

/-- mytoml_parser_parse_table from mytoml.c: walk the dotted path of a
table header, TABLE segments at dots and a TABLELEAF at the closing
bracket. -/
def mytoml_parser_parse_table : Nat → Tokenizer → TomlKey → KPath → Bool →
    Option (Tokenizer × TomlKey × KPath)
  | 0, _, _, _, _ => none
  | f + 1, t, root, p, expecting =>
    if t.is_null = true then
      if t.token = 93 then
        if expecting = true then none else some (advance t, root, p)
      else if t.token = 46 then
        if expecting = true then none
        else mytoml_parser_parse_table f (advance t) root p true
      else if mytoml_is_whitesapce t.token = true then
        mytoml_parser_parse_table f (mytoml_parser_parse_whitespace f t) root
          p expecting
      else if t.token = 34 then
        match mytoml_parser_basic_quoted_key f (advance t) 93 .TABLE
          .TABLELEAF [] with
        | some (t1, sub) =>
          match addSubKeyAt root p sub with
          | some (root1, p1) => mytoml_parser_parse_table f t1 root1 p1 false
          | none => none
        | none => none
      else if t.token = 39 then
        match mytoml_parser_literal_quoted_key f (advance t) 93 .TABLE
          .TABLELEAF [] with
        | some (t1, sub) =>
          match addSubKeyAt root p sub with
          | some (root1, p1) => mytoml_parser_parse_table f t1 root1 p1 false
          | none => none
        | none => none
      else
        match mytoml_parser_bare_key f t 93 .TABLE .TABLELEAF [] false with
        | some (t1, sub) =>
          match addSubKeyAt root p sub with
          | some (root1, p1) => mytoml_parser_parse_table f t1 root1 p1 false
          | none => none
        | none => none
    else none

/-- mytoml_parser_parse_array_table from mytoml.c: like parse_table but
the terminal segment is an ARRAYTABLE and the header must close with a
second bracket. -/
def mytoml_parser_parse_array_table : Nat → Tokenizer → TomlKey → KPath →
    Bool → Option (Tokenizer × TomlKey × KPath)
  | 0, _, _, _, _ => none
  | f + 1, t, root, p, expecting =>
    if t.is_null = true then
      if t.token = 93 then
        if expecting = true then none
        else
          let t1 := advance t
          if t1.token = 93 then some (advance t1, root, p) else none
      else if t.token = 46 then
        if expecting = true then none
        else mytoml_parser_parse_array_table f (advance t) root p true
      else if mytoml_is_whitesapce t.token = true then
        mytoml_parser_parse_array_table f (mytoml_parser_parse_whitespace f t)
          root p expecting
      else if t.token = 34 then
        match mytoml_parser_basic_quoted_key f (advance t) 93 .TABLE
          .ARRAYTABLE [] with
        | some (t1, sub) =>
          match addSubKeyAt root p sub with
          | some (root1, p1) =>
            mytoml_parser_parse_array_table f t1 root1 p1 false
          | none => none
        | none => none
      else if t.token = 39 then
        match mytoml_parser_literal_quoted_key f (advance t) 93 .TABLE
          .ARRAYTABLE [] with
        | some (t1, sub) =>
          match addSubKeyAt root p sub with
          | some (root1, p1) =>
            mytoml_parser_parse_array_table f t1 root1 p1 false
          | none => none
        | none => none
      else
        match mytoml_parser_bare_key f t 93 .TABLE .ARRAYTABLE [] false with
        | some (t1, sub) =>
          match addSubKeyAt root p sub with
          | some (root1, p1) =>
            mytoml_parser_parse_array_table f t1 root1 p1 false
          | none => none
        | none => none
    else none

/-- Add the entries of a parsed inline table one by one to the node a
path addresses, failing when any merge fails (the loop over the khash
entries in parse_key_value and parse_inline_tabel). -/
def foldAddSubkeys : TomlKey → KPath → List (List Nat × TomlKey) →
    Option TomlKey
  | r, _, [] => some r
  | r, kp, e :: rest =>
    match addSubKeyAt r kp e.2 with
    | some (r1, _) => foldAddSubkeys r1 kp rest
    | none => none

/-- The KEYLEAF to KEY to KEYLEAF dance around absorbing inline-table
entries into the node a path addresses (mytoml.c, parse_key_value and
parse_inline_tabel). -/
def mergeInline (root : TomlKey) (kp : KPath) (h : TomlKey) :
    Option TomlKey :=
  match setTypeAt root kp .KEY with
  | some r1 =>
    match foldAddSubkeys r1 kp h.subkeys with
    | some r2 => setTypeAt r2 kp .KEYLEAF
    | none => none
  | none => none

mutual

/-- mytoml_parser_parse_value from mytoml.c: skip whitespace (newlines
are fatal), then dispatch on the current byte to the string, datetime,
number, array, inline-table, boolean or inf-nan parser, with the
two-then-four byte lookahead and backtrace that separates datetimes
from numbers. -/
def mytoml_parser_parse_value : Nat → Tokenizer → List Nat →
    Option (Tokenizer × TomlValue)
  | 0, _, _ => none
  | f + 1, t, numEnd =>
    if t.is_null = true then
      let n0 := mytoml_parser_parse_newline t
      if n0.2 = true then none
      else
        let t0 := n0.1
        if mytoml_is_whitesapce t0.token = true then
          mytoml_parser_parse_value f (mytoml_parser_parse_whitespace f t0)
            numEnd
        else if t0.token = 34 then
          let t1 := advance t0
          if t1.is_null = true ∧ t1.token = 34 then
            let t2 := advance t1
            if t2.is_null = true ∧ t2.token = 34 then
              match mytoml_parser_parse_basic_string f (advance t2) [] true
                with
              | some (t3, val) => some (t3, mytoml_value_new_string val)
              | none => none
            else if mytoml_is_whitesapce t2.token = true then
              some (t2, mytoml_value_new_string [])
            else
              let n2 := mytoml_parser_parse_newline t2
              if n2.2 = true then some (n2.1, mytoml_value_new_string [])
              else none
          else
            match mytoml_parser_parse_basic_string f t1 [] false with
            | some (t3, val) => some (t3, mytoml_value_new_string val)
            | none => none
        else if t0.token = 39 then
          let t1 := advance t0
          if t1.is_null = true ∧ t1.token = 39 then
            let t2 := advance t1
            if t2.is_null = true ∧ t2.token = 39 then
              match mytoml_parser_parse_literal_string f (advance t2) [] true
                with
              | some (t3, val) => some (t3, mytoml_value_new_string val)
              | none => none
            else if mytoml_is_whitesapce t2.token = true then
              some (t2, mytoml_value_new_string [])
            else
              let n2 := mytoml_parser_parse_newline t2
              if n2.2 = true then some (n2.1, mytoml_value_new_string [])
              else none
          else
            match mytoml_parser_parse_literal_string f t1 [] false with
            | some (t3, val) => some (t3, mytoml_value_new_string val)
            | none => none
        else if mytoml_is_number_start t0.token = true then
          let r1 := mytoml_tokenizer_next_token t0
          let r2 := mytoml_tokenizer_next_token r1.1
          let t2 := r2.1
          if t2.is_null = true ∧ t2.token = 58 then
            let t3 := mytoml_tokenizer_backtrace t2
              ((r1.2 : Int) + (r2.2 : Int))
            match mytoml_parser_parse_datetime f t3 [] numEnd 0 with
            | some r => some r
            | none => none
          else if mytoml_is_digit t2.prev = false ∨
              mytoml_is_digit t2.token = false then
            let t3 := mytoml_tokenizer_backtrace t2
              ((r1.2 : Int) + (r2.2 : Int))
            match mytoml_parser_parse_number f t3 [] numEnd .INT 0 false with
            | some (t4, d, ty, prec, sci) =>
              some (t4, mytoml_value_new_number d ty prec sci)
            | none => none
          else
            let r3 := mytoml_tokenizer_next_token t2
            let r4 := mytoml_tokenizer_next_token r3.1
            let t4 := r4.1
            if t4.is_null = true ∧ t4.token = 45 then
              let t5 := mytoml_tokenizer_backtrace t4
                ((r1.2 : Int) + (r2.2 : Int) + (r3.2 : Int) + (r4.2 : Int))
              match mytoml_parser_parse_datetime f t5 [] numEnd 0 with
              | some r => some r
              | none => none
            else
              let t5 := mytoml_tokenizer_backtrace t4
                ((r1.2 : Int) + (r2.2 : Int) + (r3.2 : Int) + (r4.2 : Int))
              match mytoml_parser_parse_number f t5 [] numEnd .INT 0 false
                with
              | some (t6, d, ty, prec, sci) =>
                some (t6, mytoml_value_new_number d ty prec sci)
              | none => none
        else if t0.token = 91 then
          match mytoml_parser_parse_array f (advance t0)
            mytoml_value_new_array true with
          | some r => some r
          | none => none
        else if t0.token = 123 then
          match mytoml_parser_parse_inline_tabel f (advance t0)
            (mytoml_value_new_key .TABLE) true true with
          | some (t1, keys) => some (t1, mytoml_value_new_table keys)
          | none => none
        else if t0.token = 116 ∨ t0.token = 102 then
          let r := mytoml_parser_parse_boolean t0
          if ceq r.2 (CDouble.fin 1 0) = true ∨ ceq r.2 (CDouble.fin 0 0) = true
            then some (r.1, mytoml_value_new_number r.2 .BOOL 0 false)
          else none
        else if t0.token = 105 ∨ t0.token = 110 then
          let r := mytoml_parser_parse_lnf_nan t0 false
          if ceq r.2 (CDouble.fin 0 0) = true then none
          else some (r.1, mytoml_value_new_number r.2 .FLOAT 0 false)
        else none
    else none

/-- mytoml_parser_parse_array from mytoml.c: elements separated by
commas, with free newlines, whitespace and comments, a length cap, and
the separator discipline (sep starts true so a leading comma is
rejected, and a trailing comma is allowed). -/
def mytoml_parser_parse_array : Nat → Tokenizer → TomlValue → Bool →
    Option (Tokenizer × TomlValue)
  | 0, _, _, _ => none
  | f + 1, t, arr, sep =>
    if t.is_null = true then
      if MYTOML_MAX_ARRAY_LENGTH ≤ arr.arr.length then none
      else if t.token = 93 then some (advance t, arr)
      else if t.token = 44 then
        if sep = true then none
        else mytoml_parser_parse_array f (advance t) arr true
      else
        let n := mytoml_parser_parse_newline t
        if n.2 = true then mytoml_parser_parse_array f (advance n.1) arr sep
        else
          let t1 := n.1
          if mytoml_is_whitesapce t1.token = true then
            mytoml_parser_parse_array f (mytoml_parser_parse_whitespace f t1)
              arr sep
          else if t1.token = 35 then
            let c := mytoml_parser_parse_comment f t1
            if c.2 = true then mytoml_parser_parse_array f c.1 arr sep
            else none
          else
            if sep = false then none
            else
              match mytoml_parser_parse_value f t1 (bytes "#,] \n") with
              | some (t2, v) =>
                mytoml_parser_parse_array f t2
                  (arr.withArr (arr.arr ++ [v])) false
              | none => none
    else none

/-- mytoml_parser_parse_inline_tabel from mytoml.c (sic): comma
separated key-value entries between braces, no newlines, no trailing
comma, inline-table values absorbed through the KEYLEAF-KEY dance. -/
def mytoml_parser_parse_inline_tabel : Nat → Tokenizer → TomlKey → Bool →
    Bool → Option (Tokenizer × TomlKey)
  | 0, _, _, _, _ => none
  | f + 1, t, keys, sep, first =>
    if t.is_null = true then
      if t.token = 125 then
        if sep = true ∧ first = false then none
        else some (advance t, keys)
      else if t.token = 44 then
        if sep = true then none
        else mytoml_parser_parse_inline_tabel f (advance t) keys true first
      else
        let n := mytoml_parser_parse_newline t
        if n.2 = true then none
        else
          let t1 := n.1
          if mytoml_is_whitesapce t1.token = true then
            mytoml_parser_parse_inline_tabel f
              (mytoml_parser_parse_whitespace f t1) keys sep first
          else
            if sep = false then none
            else
              match mytoml_parser_parse_key f t1 keys [] true with
              | some (t2, keys1, kp) =>
                match mytoml_parser_parse_value f t2 (bytes ", \x7d") with
                | some (t3, v) =>
                  if v.vtype = .INLINETABLE then
                    match v.data with
                    | .table h =>
                      match mergeInline keys1 kp h with
                      | some keys2 =>
                        mytoml_parser_parse_inline_tabel f
                          (mytoml_parser_parse_whitespace f t3) keys2 false
                          false
                      | none => none
                    | _ => none
                  else
                    match setValueAt keys1 kp (some v) with
                    | some keys2 =>
                      mytoml_parser_parse_inline_tabel f
                        (mytoml_parser_parse_whitespace f t3) keys2 false
                        false
                    | none => none
                | none => none
              | none => none
    else none

end

/-- mytoml_parser_parse_key_value from mytoml.c: the statement
dispatcher.  Comments, whitespace and newlines keep the current key; a
bracket opens a table or array-of-tables header which becomes the new
current key (for an array of tables, the driver then allocates the
Array value if missing, checks the size_t idx against the length cap,
and pushes a fresh row at the incremented idx); otherwise, at the start
of a logical line, a dotted key and a value are parsed and attached,
inline tables through the merge dance. -/
def mytoml_parser_parse_key_value (f : Nat) (t : Tokenizer) (root : TomlKey)
    (kp : KPath) : Option (Tokenizer × TomlKey × KPath) :=
  if t.token = 35 then
    let c := mytoml_parser_parse_comment f t
    if c.2 = true then some (c.1, root, kp) else none
  else if mytoml_is_whitesapce t.token = true then
    some (mytoml_parser_parse_whitespace f t, root, kp)
  else
    let n := mytoml_parser_parse_newline t
    if n.2 = true then some (advance n.1, root, kp)
    else
      let t1 := n.1
      if t1.token = 91 then
        let t2 := advance t1
        if t2.token = 91 then
          match mytoml_parser_parse_array_table f (advance t2) root [] true
            with
          | some (t3, r1, tp) =>
            match getAt r1 tp with
            | some node =>
              let r2 := if node.value.isNone = true then
                (setValueAt r1 tp (some mytoml_value_new_array)).getD r1
                else r1
              match getAt r2 tp with
              | some node2 =>
                if node2.idx < MYTOML_MAX_ARRAY_LENGTH - 1 then
                  match modifyAt r2 tp pushRow with
                  | some r3 => some (t3, r3, tp)
                  | none => none
                else none
              | none => none
            | none => none
          | none => none
        else
          match mytoml_parser_parse_table f t2 root [] true with
          | some (t3, r1, tp) => some (t3, r1, tp)
          | none => none
      else if t1.prev = 0 ∨ t1.prev = 10 ∨
          (mytoml_is_whitesapce t1.prev = true ∧ t1.nl = true) then
        match mytoml_parser_parse_key f t1 root kp true with
        | some (t2, r1, sp) =>
          match mytoml_parser_parse_value f t2 (bytes "# \n") with
          | some (t3, v) =>
            if v.vtype = .INLINETABLE then
              match v.data with
              | .table h =>
                match mergeInline r1 sp h with
                | some r2 =>
                  some (mytoml_parser_parse_whitespace f t3, r2, kp)
                | none => none
              | _ => none
            else
              match setValueAt r1 sp (some v) with
              | some r2 => some (mytoml_parser_parse_whitespace f t3, r2, kp)
              | none => none
          | none => none
        | none => none
      else none

/-- The driver loop shared by toml_load_file_name, toml_load_file and
toml_loads: while a token is available, run one parse_key_value step,
threading the current key; any failure aborts the whole parse. -/
def parse_loop : Nat → Tokenizer → TomlKey → KPath → Option TomlKey
  | 0, _, _, _ => none
  | f + 1, t, root, kp =>
    if t.is_null = true then
      match mytoml_parser_parse_key_value f t root kp with
      | some (t1, r1, kp1) => parse_loop f t1 r1 kp1
      | none => none
    else some root

/-- The synthetic root: value_new_key of TABLE with the identifier
root copied in. -/
def rootKey : TomlKey := TomlKey.mk .TABLE (bytes "root") [] none SIZE_NEG1

/-- Ample fuel for a concrete buffer: every loop iteration of the C
parser consumes at least one byte or finishes a statement. -/
def bigFuel (buf : List Nat) : Nat := buf.length * 64 + 256

/-- The load pipeline after the input buffer is ready: create the root
and the tokenizer, read the first token, and run the driver loop. -/
def toml_parse_buffer (buf : List Nat) : Option TomlKey :=
  parse_loop (bigFuel buf) (advance (mytoml_new_tokenizer buf)) rootKey []

/-- toml_load_file and toml_load_file_name from mytoml.c: the file
contents are read into a buffer and tokenizer_load_input appends the
char cast of EOF (byte 0xFF) as the end sentinel. -/
def toml_load_file (contents : List Nat) : Option TomlKey :=
  toml_parse_buffer (contents ++ [255])

/-- toml_loads from mytoml.c: the in-memory entry point strdups the
string and never calls tokenizer_load_input, so the buffer ends with
the NUL terminator and no EOF sentinel is appended. -/
def toml_loads (s : List Nat) : Option TomlKey :=
  toml_parse_buffer (s ++ [0])

/-- The TOML_FLOAT case of toml_value_dump_buffer from mytoml.c.  The
libc formatters g (scientific) and precision-controlled lf are external
and are taken as parameters; every branch a claim mentions is decided
before they are consulted.  Note the first branch appends a stray
quote-brace before the inf spelling, exactly as the source does. -/
def toml_value_dump_buffer_float (fmtg : CDouble → String)
    (fmtlf : Nat → CDouble → String) (precision : Nat) (scientific : Bool)
    (f : CDouble) : String :=
  let pre := "\x7b\"type\": \"float\", \"value\": "
  if ceq f CDouble.inf = true then pre ++ "\"\x7d" ++ "\"inf\"\x7d"
  else if ceq f CDouble.neginf = true then pre ++ "\"-inf\"\x7d"
  else if cIsNan f = true then pre ++ "\"nan\"\x7d"
  else if scientific = true then pre ++ "\"" ++ fmtg f ++ "\"\x7d"
  else if ceq f (CDouble.fin 0 0) = true then pre ++ "\"0.0\"\x7d"
  else pre ++ "\"" ++ fmtlf precision f ++ "\"\x7d"

/-- The value stored under an immediate subkey of a parse result. -/
def rootLookupValue (r : Option TomlKey) (id : List Nat) :
    Option TomlValue :=
  match r with
  | none => none
  | some k =>
    match subkeyFind k.subkeys id with
    | some c => c.value
    | none => none

/-- The byte-string payload of a value, when it is a string. -/
def strPayload (v : Option TomlValue) : Option (List Nat) :=
  match v with
  | some w =>
    match w.data with
    | .str s => some s
    | _ => none
  | none => none

/-- The type tag and numeric payload of a value, when it is numeric. -/
def numPayload (v : Option TomlValue) : Option (TomlValueType × CDouble) :=
  match v with
  | some w =>
    match w.data with
    | .num d => some (w.vtype, d)
    | _ => none
  | none => none

/-- A node carrying a single KEY subkey a, for exercising the Key row
of the redefinition table. -/
def c2key : TomlKey :=
  TomlKey.mk .TABLE (bytes "p")
    [(bytes "a", TomlKey.mk .KEY (bytes "a") [] none SIZE_NEG1)]
    none SIZE_NEG1

/-- A newly parsed KEY subkey a. -/
def c2subKEY : TomlKey := newKeyWithId .KEY (bytes "a")

/-- A newly parsed KEYLEAF subkey a. -/
def c2subKEYLEAF : TomlKey := newKeyWithId .KEYLEAF (bytes "a")

/-- The tokenizer state after consuming four characters of abcdef. -/
def c4state : Tokenizer := advanceN 4 (mytoml_new_tokenizer (bytes "abcdef"))

/-- The existing TABLE subkey a for the promotion scenario. -/
def c8s : TomlKey := TomlKey.mk .TABLE (bytes "a") [] none SIZE_NEG1

/-- A node carrying a single TABLE subkey a (the state after parsing
a table header that implicitly created a). -/
def c8key : TomlKey :=
  TomlKey.mk .TABLE (bytes "r") [(bytes "a", c8s)] none SIZE_NEG1

/-- A newly parsed TABLELEAF subkey a (the header [a]). -/
def c8sub : TomlKey := newKeyWithId .TABLELEAF (bytes "a")

/-- A node named a with no subkeys, for the lookup claim. -/
def c9node : TomlKey := TomlKey.mk .KEY (bytes "a") [] none SIZE_NEG1

theorem TomlKey.subkeys_withSubkeys (k : TomlKey)
    (l : List (List Nat × TomlKey)) : (k.withSubkeys l).subkeys = l := by
  cases k
  rfl

theorem TomlKey.ktype_withType (k : TomlKey) (ty : TomlKeyType) :
    (k.withType ty).ktype = ty := by
  cases k
  rfl

theorem TomlKey.id_withType (k : TomlKey) (ty : TomlKeyType) :
    (k.withType ty).id = k.id := by
  cases k
  rfl

theorem TomlKey.depth_pos (k : TomlKey) : 0 < TomlKey.depth k := by
  cases k with
  | mk a b c d e => exact Nat.succ_pos _

theorem subkeyFind_updateSubkey (l : List (List Nat × TomlKey))
    (id : List Nat) (s v : TomlKey) (h : subkeyFind l id = some s) :
    subkeyFind (updateSubkey l id v) id = some v := by
  induction l with
  | nil => simp [subkeyFind] at h
  | cons e rest ih =>
    obtain ⟨i, k⟩ := e
    by_cases hi : i = id
    · simp [subkeyFind, updateSubkey, hi]
    · simp only [subkeyFind, updateSubkey, if_neg hi] at h ⊢
      exact ih h

theorem advance_clean (t : Tokenizer) (hnull : t.is_null = true)
    (htok : t.token ≠ 10)
    (hb10 : t.stream.getD t.cursor 0 ≠ 10)
    (hb255 : t.stream.getD t.cursor 0 ≠ 255) :
    (advance t).cursor = t.cursor + 1 ∧
    (advance t).col = t.col + 1 ∧
    (advance t).line = t.line ∧
    (advance t).token = t.stream.getD t.cursor 0 ∧
    (advance t).prev = t.token ∧
    (advance t).prev_prev = t.prev ∧
    (advance t).is_null = true ∧
    (advance t).stream = t.stream := by
  simp at hb10 hb255
  simp [advance, mytoml_tokenizer_next_token, hnull, htok, hb10, hb255]

theorem advanceN_clean3 (s : List Nat) (m : Nat) :
    ∀ t : Tokenizer, t.stream = s → t.is_null = true → t.line = 0 →
    t.token ≠ 10 →
    (∀ i, t.cursor ≤ i → i < t.cursor + (m + 3) →
      s.getD i 0 ≠ 10 ∧ s.getD i 0 ≠ 255) →
    (advanceN (m + 3) t).cursor = t.cursor + (m + 3) ∧
    (advanceN (m + 3) t).col = t.col + (m + 3) ∧
    (advanceN (m + 3) t).line = 0 ∧
    (advanceN (m + 3) t).token = s.getD (t.cursor + m + 2) 0 ∧
    (advanceN (m + 3) t).prev = s.getD (t.cursor + m + 1) 0 ∧
    (advanceN (m + 3) t).prev_prev = s.getD (t.cursor + m) 0 ∧
    (advanceN (m + 3) t).is_null = true ∧
    (advanceN (m + 3) t).stream = s := by
  induction m with
  | zero =>
    intro t hs hnull hline htok hb
    have h0 := advance_clean t hnull htok
      (by rw [hs]; exact (hb t.cursor (le_refl _) (by omega)).1)
      (by rw [hs]; exact (hb t.cursor (le_refl _) (by omega)).2)
    have h1 := advance_clean (advance t) (h0.2.2.2.2.2.2.1)
      (by rw [h0.2.2.2.1, hs]; exact (hb t.cursor (le_refl _) (by omega)).1)
      (by rw [h0.2.2.2.2.2.2.2, h0.1, hs]
          exact (hb (t.cursor + 1) (by omega) (by omega)).1)
      (by rw [h0.2.2.2.2.2.2.2, h0.1, hs]
          exact (hb (t.cursor + 1) (by omega) (by omega)).2)
    have h2 := advance_clean (advance (advance t)) (h1.2.2.2.2.2.2.1)
      (by rw [h1.2.2.2.1, h0.2.2.2.2.2.2.2, h0.1, hs]
          exact (hb (t.cursor + 1) (by omega) (by omega)).1)
      (by rw [h1.2.2.2.2.2.2.2, h1.1, h0.2.2.2.2.2.2.2, h0.1, hs]
          exact (hb (t.cursor + 2) (by omega) (by omega)).1)
      (by rw [h1.2.2.2.2.2.2.2, h1.1, h0.2.2.2.2.2.2.2, h0.1, hs]
          exact (hb (t.cursor + 2) (by omega) (by omega)).2)
    have hN : advanceN 3 t = advance (advance (advance t)) := rfl
    rw [hN]
    refine ⟨?_, ?_, ?_, ?_, ?_, ?_, ?_, ?_⟩
    · rw [h2.1, h1.1, h0.1]
    · rw [h2.2.1, h1.2.1, h0.2.1]; omega
    · rw [h2.2.2.1, h1.2.2.1, h0.2.2.1, hline]
    · rw [h2.2.2.2.1, h1.2.2.2.2.2.2.2, h1.1, h0.2.2.2.2.2.2.2, h0.1, hs]
    · rw [h2.2.2.2.2.1, h1.2.2.2.1, h0.2.2.2.2.2.2.2, h0.1, hs]
    · rw [h2.2.2.2.2.2.1, h1.2.2.2.2.1, h0.2.2.2.1, hs]
      try norm_num
    · exact h2.2.2.2.2.2.2.1
    · rw [h2.2.2.2.2.2.2.2, h1.2.2.2.2.2.2.2, h0.2.2.2.2.2.2.2, hs]
  | succ m ih =>
    intro t hs hnull hline htok hb
    have h0 := advance_clean t hnull htok
      (by rw [hs]; exact (hb t.cursor (le_refl _) (by omega)).1)
      (by rw [hs]; exact (hb t.cursor (le_refl _) (by omega)).2)
    have hN : advanceN (m + 1 + 3) t = advanceN (m + 3) (advance t) := rfl
    have hrec := ih (advance t) (by rw [h0.2.2.2.2.2.2.2, hs])
      (h0.2.2.2.2.2.2.1) (by rw [h0.2.2.1, hline])
      (by rw [h0.2.2.2.1, hs]; exact (hb t.cursor (le_refl _) (by omega)).1)
      (by intro i hi1 hi2
          rw [h0.1] at hi1 hi2
          exact hb i (by omega) (by omega))
    rw [hN]
    refine ⟨?_, ?_, ?_, ?_, ?_, ?_, ?_, ?_⟩
    · rw [hrec.1, h0.1]; omega
    · rw [hrec.2.1, h0.2.1]; omega
    · exact hrec.2.2.1
    · rw [hrec.2.2.2.1, h0.1]; congr 1; omega
    · rw [hrec.2.2.2.2.1, h0.1]; congr 1; omega
    · rw [hrec.2.2.2.2.2.1, h0.1]; congr 1; omega
    · exact hrec.2.2.2.2.2.2.1
    · exact hrec.2.2.2.2.2.2.2

theorem advanceN_two (n : Nat) (t : Tokenizer) :
    advanceN n (advance (advance t)) = advanceN (n + 2) t := rfl

theorem backtrace_clean (t : Tokenizer) (n : Nat) (hn : 1 ≤ n)
    (hline : t.line = 0) (hcur : ((n : Int) + 2) < (t.cursor : Int))
    (hcol : t.col = (t.cursor : Int)) :
    mytoml_tokenizer_backtrace t (n : Int) =
      advance (advance
        { t with
          cursor := t.cursor - (n + 2),
          is_null := true,
          line := 0,
          col := (t.cursor : Int) - ((n : Int) + 2) }) := by
  unfold mytoml_tokenizer_backtrace
  rw [if_pos (by constructor <;> omega)]
  rw [btLoop]
  rw [if_neg (by rw [hline, hcol]; omega)]
  rw [hline, hcol]
  have hc : ((t.cursor : Int) - ((n : Int) + 2)).toNat = t.cursor - (n + 2) :=
    by omega
  rw [hc]
  dsimp only
  rw [if_neg (show ¬ ((t.cursor : Int) - ((n : Int) + 2) < 0) by omega)]
  simp only [ite_self]

/-- C1: the spec says the input of two array-of-tables headers, each
followed by a key-value line, parses into a root whose subkey t is an
ArrayTable with two rows.  The code rejects it: every array-of-tables
header fails the driver check idx less than the array cap, because idx
is a size_t initialised to -1; even the one-header prefix is refused,
so the load returns absence instead of the claimed tree. -/
theorem C1_arraytable_rejected :
    toml_load_file (bytes "[[t]]\nn = 1\n[[t]]\nn = 2") = none ∧
    toml_load_file (bytes "[[t]]\nn = 1") = none := ⟨rfl, rfl⟩

/-- C2 counterexample: a node whose existing subkey a has kind Key
rejects a newly parsed KeyLeaf of the same identifier, so the Key row
of the redefinition table is not all ok as the claim states. -/
theorem C2_counterexample :
    mytoml_value_add_sub_key c2key c2subKEYLEAF = none ∧
    (subkeyFind c2key.subkeys (bytes "a")).map TomlKey.ktype =
      some TomlKeyType.KEY := ⟨rfl, rfl⟩

/-- C2 amended: merging onto an existing subkey of kind Key is accepted
and returns the existing node exactly when the new subkey has kind Key
or Table; new subkeys of kind KeyLeaf, TableLeaf or ArrayTable are
rejected. -/
theorem C2_key_row (key sub s : TomlKey)
    (hfind : subkeyFind key.subkeys sub.id = some s)
    (hs : s.ktype = .KEY) :
    ((sub.ktype = .KEY ∨ sub.ktype = .TABLE) →
      mytoml_value_add_sub_key key sub = some (key, [.child sub.id])) ∧
    ((sub.ktype = .KEYLEAF ∨ sub.ktype = .TABLELEAF ∨
        sub.ktype = .ARRAYTABLE) →
      mytoml_value_add_sub_key key sub = none) := by
  obtain ⟨f, hf⟩ : ∃ f, TomlKey.depth key = f + 1 :=
    ⟨TomlKey.depth key - 1, by have := TomlKey.depth_pos key; omega⟩
  constructor
  · intro h
    unfold mytoml_value_add_sub_key
    rw [hf]
    rcases h with h | h <;>
      simp [mytoml_value_add_sub_key_go, hfind, mytoml_value_keys_compatible,
        hs, h]
  · intro h
    unfold mytoml_value_add_sub_key
    rw [hf]
    rcases h with h | h | h <;>
      simp [mytoml_value_add_sub_key_go, hfind, mytoml_value_keys_compatible,
        hs, h]

/-- C2 witness: the amended Key-row behaviour at a concrete node. -/
theorem C2_key_row_witness :
    mytoml_value_add_sub_key c2key c2subKEY =
      some (c2key, [.child (bytes "a")]) ∧
    mytoml_value_add_sub_key c2key c2subKEYLEAF = none := by
  have h1 := C2_key_row c2key c2subKEY
    (TomlKey.mk .KEY (bytes "a") [] none SIZE_NEG1) rfl rfl
  have h2 := C2_key_row c2key c2subKEYLEAF
    (TomlKey.mk .KEY (bytes "a") [] none SIZE_NEG1) rfl rfl
  exact ⟨h1.1 (Or.inl rfl), h2.2 (Or.inl rfl)⟩

/-- C3: the spec says all three entry points return an empty root with
no subkeys on the empty document.  The file pipeline does; the
in-memory toml_loads never appends the EOF sentinel, trips over the
NUL terminator, and returns absence. -/
theorem C3_empty_document :
    toml_load_file [] =
      some (TomlKey.mk .TABLE (bytes "root") [] none SIZE_NEG1) ∧
    toml_loads [] = none := ⟨rfl, rfl⟩

/-- C4 counterexample: over the stream abcdef with four characters
consumed (at least n plus 2 for n equal 1), backtracing by 1 and then
advancing n plus 2 times does not restore the token, prev, prev_prev,
line and column. -/
theorem C4_counterexample :
    ¬ ((advanceN 3 (mytoml_tokenizer_backtrace c4state
          ((1 : Nat) : Int))).token = c4state.token ∧
       (advanceN 3 (mytoml_tokenizer_backtrace c4state
          ((1 : Nat) : Int))).prev = c4state.prev ∧
       (advanceN 3 (mytoml_tokenizer_backtrace c4state
          ((1 : Nat) : Int))).prev_prev = c4state.prev_prev ∧
       (advanceN 3 (mytoml_tokenizer_backtrace c4state
          ((1 : Nat) : Int))).line = c4state.line ∧
       (advanceN 3 (mytoml_tokenizer_backtrace c4state
          ((1 : Nat) : Int))).col = c4state.col) := by decide

/-- C4 amended: for every tokenizer state reached by consuming k
characters of a stream free of newlines and of the 0xFF sentinel, with
k strictly greater than n plus 2 and n at least 1, backtrace of n
followed by n further advances (n plus 2 advances counting the two
done inside backtrace) restores token, prev, prev_prev, line and
column. -/
theorem C4_backtrace_restore (s : List Nat) (k n : Nat) (hn : 1 ≤ n)
    (hk : n + 2 < k) (hlen : k ≤ s.length)
    (hb : ∀ i, i < k → s.getD i 0 ≠ 10 ∧ s.getD i 0 ≠ 255) :
    (advanceN n (mytoml_tokenizer_backtrace
        (advanceN k (mytoml_new_tokenizer s)) ((n : Nat) : Int))).token =
      (advanceN k (mytoml_new_tokenizer s)).token ∧
    (advanceN n (mytoml_tokenizer_backtrace
        (advanceN k (mytoml_new_tokenizer s)) ((n : Nat) : Int))).prev =
      (advanceN k (mytoml_new_tokenizer s)).prev ∧
    (advanceN n (mytoml_tokenizer_backtrace
        (advanceN k (mytoml_new_tokenizer s)) ((n : Nat) : Int))).prev_prev =
      (advanceN k (mytoml_new_tokenizer s)).prev_prev ∧
    (advanceN n (mytoml_tokenizer_backtrace
        (advanceN k (mytoml_new_tokenizer s)) ((n : Nat) : Int))).line =
      (advanceN k (mytoml_new_tokenizer s)).line ∧
    (advanceN n (mytoml_tokenizer_backtrace
        (advanceN k (mytoml_new_tokenizer s)) ((n : Nat) : Int))).col =
      (advanceN k (mytoml_new_tokenizer s)).col := by
  obtain ⟨m, rfl⟩ : ∃ m, k = m + 3 := ⟨k - 3, by omega⟩
  obtain ⟨q, rfl⟩ : ∃ q, n = q + 1 := ⟨n - 1, by omega⟩
  have h0 := advanceN_clean3 s m (mytoml_new_tokenizer s) rfl rfl rfl
    (by simp [mytoml_new_tokenizer])
    (by
      intro i h1 h2
      refine hb i ?_
      simp only [mytoml_new_tokenizer] at h2
      omega)
  rw [show (mytoml_new_tokenizer s).cursor = 0 from rfl,
    show (mytoml_new_tokenizer s).col = 0 from rfl] at h0
  set t0 := advanceN (m + 3) (mytoml_new_tokenizer s) with ht0
  have hline0 : t0.line = 0 := h0.2.2.1
  have hcur0 : ((q + 1 : Nat) : Int) + 2 < (t0.cursor : Int) := by
    rw [h0.1]
    omega
  have hcol0 : t0.col = (t0.cursor : Int) := by
    rw [h0.2.1, h0.1]
    omega
  have hbt := backtrace_clean t0 (q + 1) (by omega) hline0 hcur0 hcol0
  set w : Tokenizer :=
    { t0 with
      cursor := t0.cursor - (q + 1 + 2),
      is_null := true,
      line := 0,
      col := (t0.cursor : Int) - (((q + 1 : Nat) : Int) + 2) } with hwdef
  have hws : w.stream = s := h0.2.2.2.2.2.2.2
  have hwtok : w.token ≠ 10 := by
    have : w.token = t0.token := rfl
    rw [this, h0.2.2.2.1]
    exact (hb (0 + m + 2) (by omega)).1
  have hwcur : w.cursor = m - q := by
    have : w.cursor = t0.cursor - (q + 1 + 2) := rfl
    rw [this, h0.1]
    omega
  have hwcol : w.col = (t0.cursor : Int) - (((q + 1 : Nat) : Int) + 2) := rfl
  have hrec := advanceN_clean3 s q w hws rfl rfl hwtok
    (by
      intro i h1 h2
      rw [hwcur] at h1 h2
      exact hb i (by omega))
  rw [hwcur] at hrec
  rw [hbt, advanceN_two]
  have hidx : advanceN (q + 1 + 2) w = advanceN (q + 3) w := rfl
  rw [hidx]
  refine ⟨?_, ?_, ?_, ?_, ?_⟩
  · rw [hrec.2.2.2.1, h0.2.2.2.1]
    congr 1
    omega
  · rw [hrec.2.2.2.2.1, h0.2.2.2.2.1]
    congr 1
    omega
  · rw [hrec.2.2.2.2.2.1, h0.2.2.2.2.2.1]
    congr 1
    omega
  · rw [hrec.2.2.1, hline0]
  · rw [hrec.2.1, hwcol, h0.2.1, h0.1]
    omega

/-- C4 witness: the amended round trip at the concrete stream abcde
with four characters consumed and n equal 1. -/
theorem C4_backtrace_restore_witness :
    (advanceN 1 (mytoml_tokenizer_backtrace
        (advanceN 4 (mytoml_new_tokenizer (bytes "abcde")))
        ((1 : Nat) : Int))).token =
      (advanceN 4 (mytoml_new_tokenizer (bytes "abcde"))).token ∧
    (advanceN 1 (mytoml_tokenizer_backtrace
        (advanceN 4 (mytoml_new_tokenizer (bytes "abcde")))
        ((1 : Nat) : Int))).prev =
      (advanceN 4 (mytoml_new_tokenizer (bytes "abcde"))).prev ∧
    (advanceN 1 (mytoml_tokenizer_backtrace
        (advanceN 4 (mytoml_new_tokenizer (bytes "abcde")))
        ((1 : Nat) : Int))).prev_prev =
      (advanceN 4 (mytoml_new_tokenizer (bytes "abcde"))).prev_prev ∧
    (advanceN 1 (mytoml_tokenizer_backtrace
        (advanceN 4 (mytoml_new_tokenizer (bytes "abcde")))
        ((1 : Nat) : Int))).line =
      (advanceN 4 (mytoml_new_tokenizer (bytes "abcde"))).line ∧
    (advanceN 1 (mytoml_tokenizer_backtrace
        (advanceN 4 (mytoml_new_tokenizer (bytes "abcde")))
        ((1 : Nat) : Int))).col =
      (advanceN 4 (mytoml_new_tokenizer (bytes "abcde"))).col :=
  C4_backtrace_restore (bytes "abcde") 4 1 (by decide) (by decide)
    (by decide) (by decide)

/-- C5 counterexample: with two newlines immediately after the opening
triple quote, the parsed value is hello with one trailing newline, not
the claimed value with the second newline preserved; every leading
newline is trimmed, not only the first. -/
theorem C5_counterexample :
    strPayload (rootLookupValue (toml_load_file
      (bytes "s = \"\"\"\n\nhello\n\"\"\"\n")) (bytes "s")) =
      some (bytes "hello\n") ∧
    some (bytes "hello\n") ≠ some (bytes "\nhello\n") := ⟨rfl, by decide⟩

/-- C5 amended: in a multi-line basic string every newline encountered
while the accumulated value is still empty is trimmed: one leading
newline yields hello-newline, and two leading newlines yield the same
value. -/
theorem C5_multiline_leading_newlines :
    strPayload (rootLookupValue (toml_load_file
      (bytes "s = \"\"\"\nhello\n\"\"\"\n")) (bytes "s")) =
      some (bytes "hello\n") ∧
    strPayload (rootLookupValue (toml_load_file
      (bytes "s = \"\"\"\n\nhello\n\"\"\"\n")) (bytes "s")) =
      some (bytes "hello\n") := ⟨rfl, rfl⟩

/-- C6: the serializer emits minus infinity as -inf, NaN as nan, zero
with the scientific flag clear as 0.0, as the claim states; but for
positive infinity the first branch appends a stray quote-brace before
the inf spelling, so the emitted text is malformed rather than the
claimed inf string.  The libc formatters are parameters; no branch
below consults them. -/
theorem C6_float_dump (fmtg : CDouble → String)
    (fmtlf : Nat → CDouble → String) (p : Nat) (sci : Bool) :
    toml_value_dump_buffer_float fmtg fmtlf p sci CDouble.inf =
      "\x7b\"type\": \"float\", \"value\": \"\x7d\"inf\"\x7d" ∧
    toml_value_dump_buffer_float fmtg fmtlf p sci CDouble.neginf =
      "\x7b\"type\": \"float\", \"value\": \"-inf\"\x7d" ∧
    toml_value_dump_buffer_float fmtg fmtlf p sci CDouble.nan =
      "\x7b\"type\": \"float\", \"value\": \"nan\"\x7d" ∧
    toml_value_dump_buffer_float fmtg fmtlf p false (CDouble.fin 0 0) =
      "\x7b\"type\": \"float\", \"value\": \"0.0\"\x7d" :=
  ⟨rfl, rfl, rfl, rfl⟩

/-- C7 counterexample: the claim says a signed base-marked number such
as -0x1 parses to the corresponding value; the code rejects the whole
document, because the base-marker branch only fires when the zero is
the first character of the literal. -/
theorem C7_counterexample :
    numPayload (rootLookupValue (toml_load_file (bytes "n = -0x1\n"))
      (bytes "n")) = none ∧
    (none : Option (TomlValueType × CDouble)) ≠
      some (TomlValueType.INT, CDouble.fin (-1) 0) := ⟨rfl, by decide⟩

/-- C7 amended: an unsigned base marker with base-appropriate digits
and underscores between digits is accepted, the hex literal of the
claim evaluating to Integer 3735928559 (in a newline-terminated
document); a signed base-marked number such as -0x1 is rejected. -/
theorem C7_hex_integer :
    numPayload (rootLookupValue (toml_load_file
      (bytes "n = 0xDE_AD_BE_EF\n")) (bytes "n")) =
      some (TomlValueType.INT, CDouble.fin 3735928559 0) ∧
    toml_load_file (bytes "n = -0x1\n") = none := ⟨rfl, rfl⟩

/-- C8: merging a TableLeaf onto an existing Table subkey succeeds and
upgrades the existing node to TableLeaf, exactly once: a second
TableLeaf of the same identifier is rejected, as is any redefinition
of an existing KeyLeaf; the duplicate header document [a] [a] is a
parse error. -/
theorem C8_tableleaf_promotion (key sub s : TomlKey)
    (hfind : subkeyFind key.subkeys sub.id = some s) :
    (s.ktype = .TABLE → sub.ktype = .TABLELEAF →
      mytoml_value_add_sub_key key sub =
        some (key.withSubkeys (updateSubkey key.subkeys sub.id
          (s.withType .TABLELEAF)), [.child sub.id]) ∧
      (∀ sub2 : TomlKey, sub2.id = sub.id → sub2.ktype = .TABLELEAF →
        mytoml_value_add_sub_key
          (key.withSubkeys (updateSubkey key.subkeys sub.id
            (s.withType .TABLELEAF))) sub2 = none)) ∧
    (s.ktype = .KEYLEAF → mytoml_value_add_sub_key key sub = none) ∧
    toml_load_file (bytes "[a]\n[a]\n") = none := by
  obtain ⟨f, hf⟩ : ∃ f, TomlKey.depth key = f + 1 :=
    ⟨TomlKey.depth key - 1, by have := TomlKey.depth_pos key; omega⟩
  obtain ⟨g, hg⟩ : ∃ g, TomlKey.depth (key.withSubkeys (updateSubkey
      key.subkeys sub.id (s.withType .TABLELEAF))) = g + 1 :=
    ⟨TomlKey.depth (key.withSubkeys (updateSubkey key.subkeys sub.id
      (s.withType .TABLELEAF))) - 1,
      by have := TomlKey.depth_pos (key.withSubkeys (updateSubkey
        key.subkeys sub.id (s.withType .TABLELEAF))); omega⟩
  refine ⟨?_, ?_, rfl⟩
  · intro h1 h2
    constructor
    · unfold mytoml_value_add_sub_key
      rw [hf]
      simp [mytoml_value_add_sub_key_go, hfind,
        mytoml_value_keys_compatible, h1, h2]
    · intro sub2 hid hty
      unfold mytoml_value_add_sub_key
      rw [hg]
      have hfind2 : subkeyFind (key.withSubkeys (updateSubkey key.subkeys
          sub.id (s.withType .TABLELEAF))).subkeys sub2.id =
          some (s.withType .TABLELEAF) := by
        rw [TomlKey.subkeys_withSubkeys, hid]
        exact subkeyFind_updateSubkey _ _ _ _ hfind
      simp [mytoml_value_add_sub_key_go, hfind2,
        mytoml_value_keys_compatible, hty, TomlKey.ktype_withType]
  · intro h1
    unfold mytoml_value_add_sub_key
    rw [hf]
    simp [mytoml_value_add_sub_key_go, hfind,
      mytoml_value_keys_compatible, h1]

/-- C8 witness: the promotion and its one-shot nature at a concrete
node. -/
theorem C8_tableleaf_promotion_witness :
    mytoml_value_add_sub_key c8key c8sub =
      some (c8key.withSubkeys (updateSubkey c8key.subkeys c8sub.id
        (c8s.withType .TABLELEAF)), [.child c8sub.id]) ∧
    mytoml_value_add_sub_key (c8key.withSubkeys (updateSubkey c8key.subkeys
      c8sub.id (c8s.withType .TABLELEAF))) c8sub = none := by
  have h := C8_tableleaf_promotion c8key c8sub c8s rfl
  exact ⟨(h.1 rfl rfl).1, (h.1 rfl rfl).2 c8sub rfl rfl⟩

/-- C9 counterexample: lookup of the identifier a on a node itself
named a with no subkeys returns the queried node, not absence, so
lookup does not only retrieve immediate subkeys. -/
theorem C9_counterexample :
    toml_get_key (some c9node) (bytes "a") = some c9node ∧
    subkeyFind c9node.subkeys (bytes "a") = none := ⟨rfl, rfl⟩

/-- C9 amended: lookup returns the queried node itself when its own
identifier matches the request; otherwise it returns exactly the
immediate subkey of that identifier, and absence when none exists. -/
theorem C9_lookup (k : TomlKey) (id : List Nat) (c : TomlKey) :
    toml_get_key (some k) id = some c ↔
      (k.id = id ∧ c = k) ∨
      (¬ k.id = id ∧ subkeyFind k.subkeys id = some c) := by
  unfold toml_get_key
  by_cases h : k.id = id
  · simp [h, eq_comm]
  · simp [h]

/-- C10: an integer literal of repeated zeros is accepted and yields
Integer 0, because the leading-zero rejection only applies when the
converted value is non-zero. -/
theorem C10_repeated_zeros :
    numPayload (rootLookupValue (toml_load_file (bytes "x = 00\n"))
      (bytes "x")) = some (TomlValueType.INT, CDouble.fin 0 0) ∧
    numPayload (rootLookupValue (toml_load_file (bytes "x = 000\n"))
      (bytes "x")) = some (TomlValueType.INT, CDouble.fin 0 0) := ⟨rfl, rfl⟩

end Mytoml
